import Mathlib

/- Verification of the numeric core of UNIlib.py: trapezoidal integration
   (nIntegration), discrete differences (ndifferential), the residence-time
   moment analysis (Manuelleauswertung) and the CSTR conversion iterator
   (verweilzeitUmsatzmake).

   Embedding conventions:
   * Python floats are modelled by ℝ where only finite real values are in
     play; a second model (`PyVal`) with explicit non-finite values pinf /
     ninf / nan is used for the claims that are about NaN/inf propagation,
     following numpy scalar semantics (division by zero, sqrt of a negative
     number and 0/0 produce non-finite values with a RuntimeWarning, they do
     not raise).
   * Python exceptions (the ValueError raised by nIntegration) are modelled
     with `Except String`.
   * Python list indexing `l[i]` is modelled by `List.getD l i 0`; the claims
     about the iterator carry the length hypotheses under which every access
     is in bounds, so the default is never consulted there.  List mutation by
     `append` is modelled by explicit state passing: the iterator state
     carries all three lists the Python function can reach. -/

/-- The trapezoid accumulation of `nIntegration` (UNIlib.py lines 73-76):
`xdif = [j - i for i, j in zip(datax, datax[1:])]`,
`ydif = [(i + j) / 2 for i, j in zip(datay, datay[1:])]`,
`inte = [i * j for i, j in zip(xdif, ydif)]`, `sum(inte)`. -/
noncomputable def trapezSum (datax datay : List ℝ) : ℝ :=
  let xdif := List.zipWith (fun i j => j - i) datax datax.tail
  let ydif := List.zipWith (fun i j => (i + j) / 2) datay datay.tail
  (List.zipWith (fun i j => i * j) xdif ydif).sum

/-- `nIntegration` (UNIlib.py lines 43-76): raises ValueError on a length
mismatch, returns 0.0 for fewer than 2 points, otherwise the trapezoid sum. -/
noncomputable def nIntegration (datax datay : List ℝ) : Except String ℝ :=
  if datax.length ≠ datay.length then
    Except.error "Die Eingabelisten datax und datay müssen die gleiche Länge haben."
  else if datax.length < 2 then Except.ok 0.0
  else Except.ok (trapezSum datax datay)

/-- `ndifferential` (UNIlib.py lines 79-84): the two forward-difference lists,
computed from each input independently; the source has no length check and no
failure path (each comprehension only reads one of the two lists). -/
noncomputable def ndifferential (datax datay : List ℝ) : List ℝ × List ℝ :=
  (List.zipWith (fun i j => j - i) datax datax.tail,
   List.zipWith (fun i j => j - i) datay datay.tail)

lemma trapezSum_nil (datay : List ℝ) : trapezSum [] datay = 0 := rfl

lemma trapezSum_single (x : ℝ) (datay : List ℝ) : trapezSum [x] datay = 0 := rfl

lemma trapezSum_cons_cons (x1 x2 : ℝ) (xs : List ℝ) (y1 y2 : ℝ) (ys : List ℝ) :
    trapezSum (x1 :: x2 :: xs) (y1 :: y2 :: ys) =
      (x2 - x1) * ((y1 + y2) / 2) + trapezSum (x2 :: xs) (y2 :: ys) := rfl

lemma trapezSum_y_nil (datax : List ℝ) : trapezSum datax [] = 0 := by
  simp [trapezSum]

lemma trapezSum_y_single (datax : List ℝ) (y : ℝ) : trapezSum datax [y] = 0 := by
  simp [trapezSum]

/-- The zipWith-based trapezoid sum, written as an indexed finite sum. -/
lemma trapezSum_eq_sum (datax datay : List ℝ) (h : datax.length = datay.length) :
    trapezSum datax datay =
      ∑ i in Finset.range (datax.length - 1),
        (datax.getD (i + 1) 0 - datax.getD i 0) *
          ((datay.getD i 0 + datay.getD (i + 1) 0) / 2) := by
  induction datax generalizing datay with
  | nil => simp [trapezSum_nil]
  | cons x1 xs ih =>
    cases datay with
    | nil => simp at h
    | cons y1 ys =>
      cases xs with
      | nil =>
        cases ys with
        | nil => simp [trapezSum_single]
        | cons y2 ys2 => simp at h
      | cons x2 xs2 =>
        cases ys with
        | nil => simp at h
        | cons y2 ys2 =>
          have hlen : (x2 :: xs2).length = (y2 :: ys2).length := by
            simpa using h
          rw [trapezSum_cons_cons, ih (y2 :: ys2) hlen]
          have hx : (x1 :: x2 :: xs2).length - 1 = xs2.length + 1 := by
            simp
          rw [hx, Finset.sum_range_succ']
          have hx2 : (x2 :: xs2).length - 1 = xs2.length := by simp
          rw [hx2]
          simp only [List.getD_cons_succ, List.getD_cons_zero]
          ring

/-- C1 (confirmed). For equal-length real sequences, nIntegration returns
exactly 0.0 when the length is less than 2, and otherwise the trapezoidal sum
over all adjacent pairs `(datax[i+1]-datax[i]) * (datay[i]+datay[i+1])/2`. -/
theorem nIntegration_C1 (datax datay : List ℝ) (h : datax.length = datay.length) :
    nIntegration datax datay =
      Except.ok (if datax.length < 2 then 0 else
        ∑ i in Finset.range (datax.length - 1),
          (datax.getD (i + 1) 0 - datax.getD i 0) *
            ((datay.getD i 0 + datay.getD (i + 1) 0) / 2)) := by
  rw [nIntegration, if_neg (by simp [h])]
  by_cases h2 : datax.length < 2
  · rw [if_pos h2, if_pos h2]
    norm_num
  · rw [if_neg h2, if_neg h2, trapezSum_eq_sum datax datay h]

/-- Witness for C1 at datax = [0,1,2], datay = [1,3,5]. -/
theorem nIntegration_C1_witness :
    ([(0 : ℝ), 1, 2].length = [(1 : ℝ), 3, 5].length) ∧
    nIntegration [(0 : ℝ), 1, 2] [(1 : ℝ), 3, 5] =
      Except.ok (if [(0 : ℝ), 1, 2].length < 2 then 0 else
        ∑ i in Finset.range ([(0 : ℝ), 1, 2].length - 1),
          ([(0 : ℝ), 1, 2].getD (i + 1) 0 - [(0 : ℝ), 1, 2].getD i 0) *
            (([(1 : ℝ), 3, 5].getD i 0 + [(1 : ℝ), 3, 5].getD (i + 1) 0) / 2)) :=
  ⟨rfl, nIntegration_C1 _ _ rfl⟩

/-- Dividing every y-value by a constant divides the trapezoid sum by it. -/
lemma trapezSum_map_div (datax datay : List ℝ) (c : ℝ) :
    trapezSum datax (datay.map (fun e => e / c)) = trapezSum datax datay / c := by
  induction datax generalizing datay with
  | nil => simp [trapezSum_nil]
  | cons x1 xs ih =>
    cases datay with
    | nil => simp [trapezSum_y_nil]
    | cons y1 ys =>
      cases xs with
      | nil => simp [trapezSum_single]
      | cons x2 xs2 =>
        cases ys with
        | nil => simp [trapezSum_y_single]
        | cons y2 ys2 =>
          have hmap : (y1 :: y2 :: ys2).map (fun e => e / c) =
              (y1 / c) :: (y2 / c) :: ys2.map (fun e => e / c) := rfl
          rw [hmap, trapezSum_cons_cons]
          have hmap2 : (y2 / c) :: ys2.map (fun e => e / c) =
              (y2 :: ys2).map (fun e => e / c) := rfl
          rw [hmap2, ih (y2 :: ys2), trapezSum_cons_cons]
          ring

/-- C3 (confirmed). Whenever nIntegration(t, E) succeeds with a nonzero value I,
integrating the pointwise-normalized series E/I over the same t yields exactly 1. -/
theorem nIntegration_norm_C3 (t E : List ℝ) (I : ℝ)
    (h : nIntegration t E = Except.ok I) (hne : I ≠ 0) :
    nIntegration t (E.map (fun e => e / I)) = Except.ok 1 := by
  rw [nIntegration] at h
  by_cases hlen : t.length ≠ E.length
  · rw [if_pos hlen] at h
    cases h
  · rw [if_neg hlen] at h
    push_neg at hlen
    by_cases h2 : t.length < 2
    · rw [if_pos h2] at h
      have h0 : I = (0.0 : ℝ) := by simpa using h.symm
      rw [h0] at hne
      norm_num at hne
    · rw [if_neg h2] at h
      have hI : trapezSum t E = I := by simpa using h
      rw [nIntegration, if_neg (by simp [hlen]), if_neg h2,
        trapezSum_map_div, hI, div_self hne]

/-- Witness for C3 at t = [0,1], E = [1,1] (integral 1). -/
theorem nIntegration_norm_C3_witness :
    nIntegration [(0 : ℝ), 1] [(1 : ℝ), 1] = Except.ok 1 ∧ (1 : ℝ) ≠ 0 ∧
    nIntegration [(0 : ℝ), 1] ([(1 : ℝ), 1].map (fun e => e / 1)) = Except.ok 1 := by
  have hI : nIntegration [(0 : ℝ), 1] [(1 : ℝ), 1] = Except.ok 1 := by
    norm_num [nIntegration, trapezSum]
  exact ⟨hI, by norm_num, nIntegration_norm_C3 _ _ _ hI (by norm_num)⟩

/-- C4 counterexample. At datax = [0,1,2], datay = [0,1] (a length mismatch),
nIntegration raises the shape error, but ndifferential returns an ordinary
pair of forward-difference lists — it raises nothing, refuting the claim that
both operations raise a shape error on mismatched lengths. -/
theorem ndifferential_C4_counterexample :
    nIntegration [(0 : ℝ), 1, 2] [(0 : ℝ), 1] =
      Except.error "Die Eingabelisten datax und datay müssen die gleiche Länge haben." ∧
    ndifferential [(0 : ℝ), 1, 2] [(0 : ℝ), 1] = ([1, 1], [1]) := by
  constructor
  · rw [nIntegration, if_pos (by norm_num)]
  · norm_num [ndifferential]

/-- C4 amended (corrected). On every length mismatch, nIntegration raises the
shape error; ndifferential performs no length check at all: it raises nothing
and returns the forward differences of each input sequence independently
(so it also never zips the two inputs to a common shorter length). -/
theorem ndifferential_C4_amended (datax datay : List ℝ)
    (h : datax.length ≠ datay.length) :
    nIntegration datax datay =
      Except.error "Die Eingabelisten datax und datay müssen die gleiche Länge haben." ∧
    ndifferential datax datay =
      (List.zipWith (fun i j => j - i) datax datax.tail,
       List.zipWith (fun i j => j - i) datay datay.tail) := by
  exact ⟨by rw [nIntegration, if_pos h], rfl⟩

/-- Witness for the amended C4 at datax = [0,1,2], datay = [0,1]. -/
theorem ndifferential_C4_amended_witness :
    ([(0 : ℝ), 1, 2].length ≠ [(0 : ℝ), 1].length) ∧
    nIntegration [(0 : ℝ), 1, 2] [(0 : ℝ), 1] =
      Except.error "Die Eingabelisten datax und datay müssen die gleiche Länge haben." ∧
    ndifferential [(0 : ℝ), 1, 2] [(0 : ℝ), 1] =
      (List.zipWith (fun i j => j - i) [(0 : ℝ), 1, 2] [(0 : ℝ), 1, 2].tail,
       List.zipWith (fun i j => j - i) [(0 : ℝ), 1] [(0 : ℝ), 1].tail) :=
  ⟨by norm_num, ndifferential_C4_amended _ _ (by norm_num)⟩

/-- The Arrhenius rate constant of UNIlib.py lines 387-388 (and 466-467):
`R_0 = 8.314; k = k0 * (np.e) ** (-Ea / (R_0 * T))`; `np.e ** x` is `exp x`. -/
noncomputable def arrheniusK (k0 Ea T : ℝ) : ℝ := k0 * Real.exp (-Ea / (8.314 * T))

/-- The closed-form CSTR conversion update of UNIlib.py line 393:
`F = (1 + 2 * a - np.sqrt(1 + 4 * a * (1 - F_prev))) / (2 * a)`. -/
noncomputable def cstrStep (a Fprev : ℝ) : ℝ :=
  (1 + 2 * a - Real.sqrt (1 + 4 * a * (1 - Fprev))) / (2 * a)

/-- The mutable state reachable by the loop of `verweilzeitUmsatzmake`
(UNIlib.py lines 389-396): the residence times (`tauexp = tau`, aliased and
only read), the conversion list `F_i` and the concentration list `C_0i`
(both grown by `append`). -/
structure VZState where
  tauexp : List ℝ
  F_i : List ℝ
  C_0i : List ℝ

/-- One iteration of the loop body (UNIlib.py lines 392-395):
`a = tauexp[i] * k * C_0i[i] * 60`, compute `F`, append `F` to `F_i`,
append `F * C_0i[i]` to `C_0i`.  Indexing is modelled with `getD _ _ 0`
(in Python an out-of-range index raises IndexError; the claims only concern
in-bounds runs). -/
noncomputable def vzStep (k : ℝ) (s : VZState) (i : ℕ) : VZState :=
  let a := s.tauexp.getD i 0 * k * s.C_0i.getD i 0 * 60
  { tauexp := s.tauexp,
    F_i := s.F_i ++ [cstrStep a (s.F_i.getD i 0)],
    C_0i := s.C_0i ++ [cstrStep a (s.F_i.getD i 0) * s.C_0i.getD i 0] }

/-- The loop `for i in range(ii)` of UNIlib.py lines 391-395 as a fold. -/
noncomputable def vzFold (k : ℝ) (s : VZState) (n : ℕ) : VZState :=
  (List.range n).foldl (vzStep k) s

/-- `verweilzeitUmsatzmake` (UNIlib.py lines 342-396): computes the Arrhenius
constant, seeds `F_i = [0]`, runs the loop `ii` times.  The Python function
returns `F_i` and mutates the caller's `C_0i`; the model returns the whole
final state, whose `.F_i` is the return value and whose `.C_0i` is the
caller's list after the call. -/
noncomputable def verweilzeitUmsatzmake (tau : List ℝ) (k0 Ea T : ℝ)
    (C_0i : List ℝ) (ii : ℕ) : VZState :=
  vzFold (arrheniusK k0 Ea T) { tauexp := tau, F_i := [0], C_0i := C_0i } ii

lemma vzFold_succ (k : ℝ) (s : VZState) (n : ℕ) :
    vzFold k s (n + 1) = vzStep k (vzFold k s n) n := by
  rw [vzFold, List.range_succ, List.foldl_append]
  rfl

lemma vzFold_tauexp (k : ℝ) (s : VZState) (n : ℕ) :
    (vzFold k s n).tauexp = s.tauexp := by
  induction n with
  | zero => rfl
  | succ n ih => rw [vzFold_succ, vzStep, ih]

lemma vzFold_F_length (k : ℝ) (s : VZState) (n : ℕ) :
    (vzFold k s n).F_i.length = s.F_i.length + n := by
  induction n with
  | zero => rfl
  | succ n ih =>
    rw [vzFold_succ, vzStep]
    simp only [List.length_append, List.length_cons, List.length_nil, ih]
    omega

lemma vzFold_C_length (k : ℝ) (s : VZState) (n : ℕ) :
    (vzFold k s n).C_0i.length = s.C_0i.length + n := by
  induction n with
  | zero => rfl
  | succ n ih =>
    rw [vzFold_succ, vzStep]
    simp only [List.length_append, List.length_cons, List.length_nil, ih]
    omega

lemma vzFold_F_getD_stable (k : ℝ) (s : VZState) (m n : ℕ) (hmn : m ≤ n)
    (j : ℕ) (hj : j < s.F_i.length + m) :
    (vzFold k s n).F_i.getD j 0 = (vzFold k s m).F_i.getD j 0 := by
  induction n with
  | zero =>
    have hm : m = 0 := Nat.le_zero.mp hmn
    subst hm; rfl
  | succ n ih =>
    by_cases hm : m = n + 1
    · subst hm; rfl
    · have hmn' : m ≤ n := by omega
      rw [vzFold_succ, vzStep]
      simp only
      rw [List.getD_append _ _ _ _ (by rw [vzFold_F_length]; omega)]
      exact ih hmn'

lemma vzFold_C_getD_stable (k : ℝ) (s : VZState) (m n : ℕ) (hmn : m ≤ n)
    (j : ℕ) (hj : j < s.C_0i.length + m) :
    (vzFold k s n).C_0i.getD j 0 = (vzFold k s m).C_0i.getD j 0 := by
  induction n with
  | zero =>
    have hm : m = 0 := Nat.le_zero.mp hmn
    subst hm; rfl
  | succ n ih =>
    by_cases hm : m = n + 1
    · subst hm; rfl
    · have hmn' : m ≤ n := by omega
      rw [vzFold_succ, vzStep]
      simp only
      rw [List.getD_append _ _ _ _ (by rw [vzFold_C_length]; omega)]
      exact ih hmn'

lemma vzFold_F_last (k : ℝ) (s : VZState) (n : ℕ) :
    (vzFold k s (n + 1)).F_i.getD (s.F_i.length + n) 0 =
      cstrStep ((vzFold k s n).tauexp.getD n 0 * k * (vzFold k s n).C_0i.getD n 0 * 60)
        ((vzFold k s n).F_i.getD n 0) := by
  rw [vzFold_succ, vzStep]
  simp only
  rw [List.getD_append_right _ _ _ _ (by rw [vzFold_F_length])]
  rw [vzFold_F_length]
  simp

lemma vzFold_C_last (k : ℝ) (s : VZState) (n : ℕ) :
    (vzFold k s (n + 1)).C_0i.getD (s.C_0i.length + n) 0 =
      cstrStep ((vzFold k s n).tauexp.getD n 0 * k * (vzFold k s n).C_0i.getD n 0 * 60)
        ((vzFold k s n).F_i.getD n 0) * (vzFold k s n).C_0i.getD n 0 := by
  rw [vzFold_succ, vzStep]
  simp only
  rw [List.getD_append_right _ _ _ _ (by rw [vzFold_C_length])]
  rw [vzFold_C_length]
  simp

lemma vzFold_C_take (k : ℝ) (s : VZState) (n : ℕ) :
    (vzFold k s n).C_0i.take s.C_0i.length = s.C_0i := by
  induction n with
  | zero => simp [vzFold]
  | succ n ih =>
    rw [vzFold_succ, vzStep]
    simp only
    rw [List.take_append_of_le_length (by rw [vzFold_C_length]; omega)]
    exact ih

/-- Full characterization of a run of the iterator loop started from the
seed state `{tauexp := tau, F_i := [0], C_0i := C0}`. -/
lemma vzFold_spec (k : ℝ) (tau C0 : List ℝ) (n : ℕ) (hC : 1 ≤ C0.length)
    (r : VZState) (hr : r = vzFold k { tauexp := tau, F_i := [0], C_0i := C0 } n) :
    r.tauexp = tau ∧ r.F_i.length = n + 1 ∧ r.C_0i.length = C0.length + n ∧
    r.F_i.getD 0 0 = 0 ∧ r.C_0i.take C0.length = C0 ∧
    (∀ i < n, r.F_i.getD (i + 1) 0 =
      cstrStep (tau.getD i 0 * k * r.C_0i.getD i 0 * 60) (r.F_i.getD i 0)) ∧
    (∀ i < n, r.C_0i.getD (C0.length + i) 0 =
      r.F_i.getD (i + 1) 0 * r.C_0i.getD i 0) := by
  subst hr
  set s : VZState := { tauexp := tau, F_i := [0], C_0i := C0 } with hs
  have hsF : s.F_i.length = 1 := rfl
  have hsC : s.C_0i.length = C0.length := rfl
  have hF : ∀ i < n, (vzFold k s n).F_i.getD (i + 1) 0 =
      cstrStep (tau.getD i 0 * k * (vzFold k s n).C_0i.getD i 0 * 60)
        ((vzFold k s n).F_i.getD i 0) := by
    intro i hi
    have h1 : (vzFold k s n).F_i.getD (i + 1) 0 =
        (vzFold k s (i + 1)).F_i.getD (i + 1) 0 :=
      vzFold_F_getD_stable k s (i + 1) n (by omega) (i + 1) (by omega)
    have h2 := vzFold_F_last k s i
    rw [hsF] at h2
    have h2' : (vzFold k s (i + 1)).F_i.getD (i + 1) 0 =
        cstrStep ((vzFold k s i).tauexp.getD i 0 * k * (vzFold k s i).C_0i.getD i 0 * 60)
          ((vzFold k s i).F_i.getD i 0) := by
      rw [← h2]
      congr 1
      omega
    have h3 : (vzFold k s i).tauexp = tau := vzFold_tauexp k s i
    have h4 : (vzFold k s i).C_0i.getD i 0 = (vzFold k s n).C_0i.getD i 0 :=
      (vzFold_C_getD_stable k s i n (by omega) i (by rw [hsC]; omega)).symm
    have h5 : (vzFold k s i).F_i.getD i 0 = (vzFold k s n).F_i.getD i 0 :=
      (vzFold_F_getD_stable k s i n (by omega) i (by omega)).symm
    rw [h1, h2', h3, h4, h5]
  refine ⟨vzFold_tauexp k s n, by rw [vzFold_F_length, hsF]; omega,
    by rw [vzFold_C_length, hsC], ?_, ?_, hF, ?_⟩
  · have := vzFold_F_getD_stable k s 0 n (by omega) 0 (by omega)
    rw [this]
    rfl
  · have := vzFold_C_take k s n
    rwa [hsC] at this
  · intro i hi
    have g1 : (vzFold k s n).C_0i.getD (C0.length + i) 0 =
        (vzFold k s (i + 1)).C_0i.getD (C0.length + i) 0 :=
      vzFold_C_getD_stable k s (i + 1) n (by omega) (C0.length + i) (by rw [hsC]; omega)
    have g2 := vzFold_C_last k s i
    rw [hsC] at g2
    have h3 : (vzFold k s i).tauexp = tau := vzFold_tauexp k s i
    have h4 : (vzFold k s i).C_0i.getD i 0 = (vzFold k s n).C_0i.getD i 0 :=
      (vzFold_C_getD_stable k s i n (by omega) i (by rw [hsC]; omega)).symm
    have h5 : (vzFold k s i).F_i.getD i 0 = (vzFold k s n).F_i.getD i 0 :=
      (vzFold_F_getD_stable k s i n (by omega) i (by omega)).symm
    rw [g1, g2, h3, h4, h5, hF i hi]

/-- C2 (confirmed). With tau of length at least n and C0 of length at least 1,
verweilzeitUmsatzmake produces a conversion sequence F of length n+1, with
F[0] = 0 and F[i+1] = (1 + 2a - sqrt(1 + 4a(1 - F[i]))) / (2a) where
a = tau[i] * k * C0[i] * 60 and k = k0 * exp(-Ea / (8.314 * T)), and C0 is
extended in each step by appending F[i+1] * C0[i]. -/
theorem verweilzeitUmsatzmake_C2 (tau C_0i : List ℝ) (k0 Ea T : ℝ) (n : ℕ)
    (_htau : n ≤ tau.length) (hC : 1 ≤ C_0i.length) :
    (verweilzeitUmsatzmake tau k0 Ea T C_0i n).F_i.length = n + 1 ∧
    (verweilzeitUmsatzmake tau k0 Ea T C_0i n).F_i.getD 0 0 = 0 ∧
    (∀ i < n, (verweilzeitUmsatzmake tau k0 Ea T C_0i n).F_i.getD (i + 1) 0 =
      cstrStep (tau.getD i 0 * arrheniusK k0 Ea T *
          (verweilzeitUmsatzmake tau k0 Ea T C_0i n).C_0i.getD i 0 * 60)
        ((verweilzeitUmsatzmake tau k0 Ea T C_0i n).F_i.getD i 0)) ∧
    (verweilzeitUmsatzmake tau k0 Ea T C_0i n).C_0i.length = C_0i.length + n ∧
    (∀ i < n, (verweilzeitUmsatzmake tau k0 Ea T C_0i n).C_0i.getD (C_0i.length + i) 0 =
      (verweilzeitUmsatzmake tau k0 Ea T C_0i n).F_i.getD (i + 1) 0 *
        (verweilzeitUmsatzmake tau k0 Ea T C_0i n).C_0i.getD i 0) := by
  obtain ⟨h1, h2, h3, h4, h5, h6, h7⟩ :=
    vzFold_spec (arrheniusK k0 Ea T) tau C_0i n hC
      (verweilzeitUmsatzmake tau k0 Ea T C_0i n) rfl
  exact ⟨h2, h4, h6, h3, h7⟩

/-- Witness for C2 at tau = [1], k0 = 1, Ea = 0, T = 1, C0 = [1], n = 1. -/
theorem verweilzeitUmsatzmake_C2_witness :
    (1 ≤ [(1 : ℝ)].length) ∧ (1 ≤ [(1 : ℝ)].length) ∧
    (verweilzeitUmsatzmake [(1 : ℝ)] 1 0 1 [(1 : ℝ)] 1).F_i.length = 1 + 1 :=
  ⟨by norm_num, by norm_num,
    (verweilzeitUmsatzmake_C2 [(1 : ℝ)] [(1 : ℝ)] 1 0 1 1 (by norm_num) (by norm_num)).1⟩

/-- C8 (confirmed). After a run of verweilzeitUmsatzmake with iteration count
ii, the caller's concentration list consists of its original elements
unchanged followed by exactly ii appended elements, the i-th appended element
being F[i+1] * C0[i]; the residence-time list tau is not modified. -/
theorem verweilzeitUmsatzmake_C8 (tau C_0i : List ℝ) (k0 Ea T : ℝ) (ii : ℕ)
    (hC : 1 ≤ C_0i.length) :
    (verweilzeitUmsatzmake tau k0 Ea T C_0i ii).tauexp = tau ∧
    (verweilzeitUmsatzmake tau k0 Ea T C_0i ii).C_0i.take C_0i.length = C_0i ∧
    (verweilzeitUmsatzmake tau k0 Ea T C_0i ii).C_0i.length = C_0i.length + ii ∧
    (∀ i < ii, (verweilzeitUmsatzmake tau k0 Ea T C_0i ii).C_0i.getD (C_0i.length + i) 0 =
      (verweilzeitUmsatzmake tau k0 Ea T C_0i ii).F_i.getD (i + 1) 0 *
        (verweilzeitUmsatzmake tau k0 Ea T C_0i ii).C_0i.getD i 0) := by
  obtain ⟨h1, h2, h3, h4, h5, h6, h7⟩ :=
    vzFold_spec (arrheniusK k0 Ea T) tau C_0i ii hC
      (verweilzeitUmsatzmake tau k0 Ea T C_0i ii) rfl
  exact ⟨h1, h5, h3, h7⟩

/-- Witness for C8 at tau = [2,3], k0 = 1, Ea = 0, T = 1, C0 = [1], ii = 1. -/
theorem verweilzeitUmsatzmake_C8_witness :
    (1 ≤ [(1 : ℝ)].length) ∧
    (verweilzeitUmsatzmake [(2 : ℝ), 3] 1 0 1 [(1 : ℝ)] 1).tauexp = [(2 : ℝ), 3] :=
  ⟨by norm_num, (verweilzeitUmsatzmake_C8 [(2 : ℝ), 3] [(1 : ℝ)] 1 0 1 1 (by norm_num)).1⟩

lemma except_bind_ok {ε α β : Type} (a : α) (f : α → Except ε β) :
    (Except.ok a : Except ε α) >>= f = f a := rfl

lemma except_bind_error {ε α β : Type} (e : ε) (f : α → Except ε β) :
    (Except.error e : Except ε α) >>= f = Except.error e := rfl

lemma except_pure {ε α : Type} (a : α) :
    (pure a : Except ε α) = Except.ok a := rfl

lemma trapezSum_short (datax datay : List ℝ) (h : datax.length < 2) :
    trapezSum datax datay = 0 := by
  match datax with
  | [] => exact trapezSum_nil datay
  | [x] => exact trapezSum_single x datay
  | x :: y :: l => simp at h; omega

lemma nIntegration_eq_ok (datax datay : List ℝ) (h : datax.length = datay.length) :
    nIntegration datax datay = Except.ok (trapezSum datax datay) := by
  rw [nIntegration, if_neg (by simp [h])]
  by_cases h2 : datax.length < 2
  · rw [if_pos h2, trapezSum_short datax datay h2]
    norm_num
  · rw [if_neg h2]

lemma nIntegration_ok_inv (datax datay : List ℝ) (v : ℝ)
    (h : nIntegration datax datay = Except.ok v) :
    datax.length = datay.length ∧ v = trapezSum datax datay := by
  by_cases hl : datax.length = datay.length
  · rw [nIntegration_eq_ok datax datay hl] at h
    exact ⟨hl, by simpa using h.symm⟩
  · rw [nIntegration, if_pos hl] at h
    cases h

/-- The scalar and series results collected in the dictionary `ergebnisse`
(UNIlib.py lines 470-481).  Field names follow the source variables
(the source spells `mu1`, `mu2` with an umlaut, which Lean identifiers
do not admit). -/
structure MAresults where
  mu1 : ℝ
  mu2 : ℝ
  sigsq : ℝ
  sig : ℝ
  sigma_theta_sq : ℝ
  D_uL : ℝ
  V_eff : ℝ
  t : List ℝ
  f_i : ℝ
  c_t : List ℝ

/-- The dispersion-number formula of UNIlib.py line 463:
`D_uL = (-2 + (4 + 32 * sigma_theta_sq) ** 0.5) / 16`; for a nonnegative
radicand the float power `** 0.5` is the square root (a negative radicand
gives nan under numpy, an aspect handled by the non-finite model below). -/
noncomputable def dispersionNumber (sigma_theta_sq : ℝ) : ℝ :=
  (-2 + Real.sqrt (4 + 32 * sigma_theta_sq)) / 16

/-- The computation of the dictionary `ergebnisse` in `Manuelleauswertung`
(UNIlib.py lines 456-481), on the nominal (finite, real-valued) domain:
`E_tn = E_t / nIntegration(t, E_t)` is numpy elementwise division,
`mu1 = nIntegration(t, [a*b for a,b in zip(E_tn, t)])`,
`mu2 = nIntegration(t, [a*(b**2) for a,b in zip(E_tn, t)])`,
then the moments, dispersion number, effective volume, concentration curve
and theoretical conversion exactly as in the source; the ValueError raised
inside nIntegration propagates to the caller. -/
noncomputable def ManuelleauswertungErgebnisse (E_t t : List ℝ)
    (mol_in Volstrom c_in k0 Ea T : ℝ) : Except String MAresults := do
  let I ← nIntegration t E_t
  let E_tn := E_t.map (fun e => e / I)
  let mu1 ← nIntegration t (List.zipWith (fun a b => a * b) E_tn t)
  let mu2 ← nIntegration t (List.zipWith (fun a b => a * b ^ 2) E_tn t)
  let sigsq := mu2 - mu1 ^ 2
  let sig := Real.sqrt sigsq
  let sigma_theta_sq := sigsq / mu1 ^ 2
  let D_uL := dispersionNumber sigma_theta_sq
  let V_eff := mu1 * Volstrom
  let c_t := E_tn.map (fun a => a * mol_in / Volstrom)
  let k := arrheniusK k0 Ea T
  let f_i := (c_in * mu1 * 60 * k) / (1 + c_in * mu1 * 60 * k)
  return { mu1 := mu1, mu2 := mu2, sigsq := sigsq, sig := sig,
           sigma_theta_sq := sigma_theta_sq, D_uL := D_uL, V_eff := V_eff,
           t := t, f_i := f_i, c_t := c_t }

/-- The value `Manuelleauswertung` (UNIlib.py lines 431-484) actually hands
back to its caller: the function builds `ergebnisse`, calls
`print_results_pretty(ergebnisse)` (I/O, not modelled) and ends without a
return statement, so on success the caller receives Python's None, modelled
as `Option.none`. -/
noncomputable def Manuelleauswertung (E_t t : List ℝ)
    (mol_in Volstrom c_in k0 Ea T : ℝ) : Except String (Option MAresults) :=
  (ManuelleauswertungErgebnisse E_t t mol_in Volstrom c_in k0 Ea T).map
    (fun _ => Option.none)

/-- The successful value of the `ergebnisse` computation, written without the
exception layer (used to state concrete evaluations). -/
noncomputable def MAresultOf (E_t t : List ℝ)
    (mol_in Volstrom c_in k0 Ea T : ℝ) : MAresults :=
  let I := trapezSum t E_t
  let E_tn := E_t.map (fun e => e / I)
  let mu1 := trapezSum t (List.zipWith (fun a b => a * b) E_tn t)
  let mu2 := trapezSum t (List.zipWith (fun a b => a * b ^ 2) E_tn t)
  let sigsq := mu2 - mu1 ^ 2
  let sig := Real.sqrt sigsq
  let sigma_theta_sq := sigsq / mu1 ^ 2
  let D_uL := dispersionNumber sigma_theta_sq
  let V_eff := mu1 * Volstrom
  let c_t := E_tn.map (fun a => a * mol_in / Volstrom)
  let k := arrheniusK k0 Ea T
  let f_i := (c_in * mu1 * 60 * k) / (1 + c_in * mu1 * 60 * k)
  { mu1 := mu1, mu2 := mu2, sigsq := sigsq, sig := sig,
    sigma_theta_sq := sigma_theta_sq, D_uL := D_uL, V_eff := V_eff,
    t := t, f_i := f_i, c_t := c_t }

lemma MAErgebnisse_eval (E_t t : List ℝ) (mol_in Volstrom c_in k0 Ea T : ℝ)
    (h : t.length = E_t.length) :
    ManuelleauswertungErgebnisse E_t t mol_in Volstrom c_in k0 Ea T =
      Except.ok (MAresultOf E_t t mol_in Volstrom c_in k0 Ea T) := by
  have h1 : nIntegration t E_t = Except.ok (trapezSum t E_t) :=
    nIntegration_eq_ok t E_t h
  have h2 : nIntegration t
      (List.zipWith (fun a b => a * b)
        (E_t.map (fun e => e / trapezSum t E_t)) t) =
      Except.ok (trapezSum t (List.zipWith (fun a b => a * b)
        (E_t.map (fun e => e / trapezSum t E_t)) t)) :=
    nIntegration_eq_ok _ _ (by simp [h])
  have h3 : nIntegration t
      (List.zipWith (fun a b => a * b ^ 2)
        (E_t.map (fun e => e / trapezSum t E_t)) t) =
      Except.ok (trapezSum t (List.zipWith (fun a b => a * b ^ 2)
        (E_t.map (fun e => e / trapezSum t E_t)) t)) :=
    nIntegration_eq_ok _ _ (by simp [h])
  simp only [ManuelleauswertungErgebnisse, h1, except_bind_ok, h2, h3, except_pure]
  rfl

lemma MAErgebnisse_ok_inv (E_t t : List ℝ) (mol_in Volstrom c_in k0 Ea T : ℝ)
    (r : MAresults)
    (h : ManuelleauswertungErgebnisse E_t t mol_in Volstrom c_in k0 Ea T =
      Except.ok r) :
    r = MAresultOf E_t t mol_in Volstrom c_in k0 Ea T := by
  by_cases hl : t.length = E_t.length
  · rw [MAErgebnisse_eval E_t t mol_in Volstrom c_in k0 Ea T hl] at h
    simpa using h.symm
  · rw [ManuelleauswertungErgebnisse] at h
    rw [show nIntegration t E_t =
        Except.error "Die Eingabelisten datax und datay müssen die gleiche Länge haben."
      from by rw [nIntegration, if_pos hl]] at h
    rw [except_bind_error] at h
    cases h

lemma sqrt_four : Real.sqrt 4 = 2 := by
  rw [show (4 : ℝ) = 2 ^ 2 by norm_num, Real.sqrt_sq (by norm_num : (0 : ℝ) ≤ 2)]

/-- C7 (confirmed). The dispersion number computed by Manuelleauswertung is
`(-2 + sqrt(4 + 32 * sigma_theta_sq)) / 16` applied to the dimensionless
variance it computed, and at sigma_theta_sq = 0 this formula gives 0. -/
theorem Manuelleauswertung_C7 (E_t t : List ℝ) (mol_in Volstrom c_in k0 Ea T : ℝ)
    (r : MAresults)
    (h : ManuelleauswertungErgebnisse E_t t mol_in Volstrom c_in k0 Ea T =
      Except.ok r) :
    r.D_uL = dispersionNumber r.sigma_theta_sq ∧ dispersionNumber 0 = 0 := by
  constructor
  · rw [MAErgebnisse_ok_inv E_t t mol_in Volstrom c_in k0 Ea T r h]
    rfl
  · rw [dispersionNumber]
    norm_num [sqrt_four]

/-- Witness for C7: a concrete successful run (E_t = [1,1], t = [0,1]). -/
theorem Manuelleauswertung_C7_witness :
    (MAresultOf [(1 : ℝ), 1] [(0 : ℝ), 1] 1 1 1 1 0 1).D_uL =
      dispersionNumber (MAresultOf [(1 : ℝ), 1] [(0 : ℝ), 1] 1 1 1 1 0 1).sigma_theta_sq ∧
    dispersionNumber 0 = 0 :=
  Manuelleauswertung_C7 [(1 : ℝ), 1] [(0 : ℝ), 1] 1 1 1 1 0 1 _
    (MAErgebnisse_eval [(1 : ℝ), 1] [(0 : ℝ), 1] 1 1 1 1 0 1 rfl)

/-- C9 (code_bug). Manuelleauswertung does not return the result dictionary:
on every valid (equal-length) input it builds the dictionary, prints it and
falls off the end of the function body, so the caller receives None. -/
theorem Manuelleauswertung_C9 (E_t t : List ℝ) (mol_in Volstrom c_in k0 Ea T : ℝ)
    (h : t.length = E_t.length) :
    Manuelleauswertung E_t t mol_in Volstrom c_in k0 Ea T =
      Except.ok Option.none := by
  rw [Manuelleauswertung, MAErgebnisse_eval E_t t mol_in Volstrom c_in k0 Ea T h]
  rfl

/-- Witness for C9 at E_t = [1,1], t = [0,1]. -/
theorem Manuelleauswertung_C9_witness :
    ([(0 : ℝ), 1].length = [(1 : ℝ), 1].length) ∧
    Manuelleauswertung [(1 : ℝ), 1] [(0 : ℝ), 1] 1 1 1 1 0 1 =
      Except.ok Option.none :=
  ⟨rfl, Manuelleauswertung_C9 [(1 : ℝ), 1] [(0 : ℝ), 1] 1 1 1 1 0 1 rfl⟩

/-- C10 (confirmed). The theoretical conversion computed by Manuelleauswertung
is x / (1 + x) with x = c_in * mu1 * 60 * k, k = k0 * exp(-Ea / (8.314 * T)),
and for x ≥ 0 it lies in [0, 1). -/
theorem Manuelleauswertung_C10 (E_t t : List ℝ) (mol_in Volstrom c_in k0 Ea T : ℝ)
    (r : MAresults)
    (h : ManuelleauswertungErgebnisse E_t t mol_in Volstrom c_in k0 Ea T =
      Except.ok r) :
    r.f_i = (c_in * r.mu1 * 60 * arrheniusK k0 Ea T) /
        (1 + c_in * r.mu1 * 60 * arrheniusK k0 Ea T) ∧
    (0 ≤ c_in * r.mu1 * 60 * arrheniusK k0 Ea T → 0 ≤ r.f_i ∧ r.f_i < 1) := by
  have hr := MAErgebnisse_ok_inv E_t t mol_in Volstrom c_in k0 Ea T r h
  have hfi : r.f_i = (c_in * r.mu1 * 60 * arrheniusK k0 Ea T) /
      (1 + c_in * r.mu1 * 60 * arrheniusK k0 Ea T) := by
    rw [hr]
    rfl
  refine ⟨hfi, fun hx => ?_⟩
  have hpos : (0 : ℝ) < 1 + c_in * r.mu1 * 60 * arrheniusK k0 Ea T := by linarith
  constructor
  · rw [hfi]
    exact div_nonneg hx (le_of_lt hpos)
  · rw [hfi]
    rw [div_lt_one hpos]
    linarith

/-- Witness for C10: a concrete successful run with c_in = 0 (so x = 0 ≥ 0). -/
theorem Manuelleauswertung_C10_witness :
    (0 ≤ 0 * (MAresultOf [(1 : ℝ), 1] [(0 : ℝ), 1] 1 1 0 1 0 1).mu1 * 60 *
        arrheniusK 1 0 1) ∧
    0 ≤ (MAresultOf [(1 : ℝ), 1] [(0 : ℝ), 1] 1 1 0 1 0 1).f_i ∧
    (MAresultOf [(1 : ℝ), 1] [(0 : ℝ), 1] 1 1 0 1 0 1).f_i < 1 := by
  have hx : (0 : ℝ) ≤ 0 * (MAresultOf [(1 : ℝ), 1] [(0 : ℝ), 1] 1 1 0 1 0 1).mu1 *
      60 * arrheniusK 1 0 1 := by simp
  exact ⟨hx,
    (Manuelleauswertung_C10 [(1 : ℝ), 1] [(0 : ℝ), 1] 1 1 0 1 0 1 _
      (MAErgebnisse_eval [(1 : ℝ), 1] [(0 : ℝ), 1] 1 1 0 1 0 1 rfl)).2 hx⟩

/-- A numpy float64 scalar, for the claims about NaN/inf propagation: a
finite value (idealized as an exact real; rounding and overflow are not in
play in any claim below), +inf, -inf, or nan.  Finite zeros stand for +0.0;
every concrete run below produces only positive zeros.  numpy scalar
arithmetic emits a RuntimeWarning and yields these values instead of raising:
`x/0.0` is ±inf for x ≠ 0 and nan for x = 0, `np.sqrt` of a negative number
is nan, and nan propagates through every operation. -/
inductive PyVal where
  | fin : ℝ → PyVal
  | pinf : PyVal
  | ninf : PyVal
  | nan : PyVal

/-- float64 addition on the value classes. -/
noncomputable def PyVal.add : PyVal → PyVal → PyVal
  | nan, _ => nan
  | _, nan => nan
  | fin a, fin b => fin (a + b)
  | fin _, pinf => pinf
  | pinf, fin _ => pinf
  | fin _, ninf => ninf
  | ninf, fin _ => ninf
  | pinf, pinf => pinf
  | ninf, ninf => ninf
  | pinf, ninf => nan
  | ninf, pinf => nan

/-- float64 negation. -/
noncomputable def PyVal.neg : PyVal → PyVal
  | fin a => fin (-a)
  | pinf => ninf
  | ninf => pinf
  | nan => nan

/-- float64 subtraction, `x - y = x + (-y)`. -/
noncomputable def PyVal.sub (a b : PyVal) : PyVal := PyVal.add a (PyVal.neg b)

open Classical in
/-- float64 multiplication on the value classes; `inf * 0 = nan`. -/
noncomputable def PyVal.mul : PyVal → PyVal → PyVal
  | nan, _ => nan
  | _, nan => nan
  | fin a, fin b => fin (a * b)
  | fin a, pinf => if a = 0 then nan else if 0 < a then pinf else ninf
  | fin a, ninf => if a = 0 then nan else if 0 < a then ninf else pinf
  | pinf, fin b => if b = 0 then nan else if 0 < b then pinf else ninf
  | ninf, fin b => if b = 0 then nan else if 0 < b then ninf else pinf
  | pinf, pinf => pinf
  | pinf, ninf => ninf
  | ninf, pinf => ninf
  | ninf, ninf => pinf

open Classical in
/-- float64 division on the value classes; a zero divisor is +0.0, so
`x/0.0` is nan for x = 0, +inf for x > 0, -inf for x < 0; a finite value
divided by an infinity is (±)0.0; inf/inf and anything with nan is nan. -/
noncomputable def PyVal.div : PyVal → PyVal → PyVal
  | nan, _ => nan
  | _, nan => nan
  | fin a, fin b =>
      if b = 0 then (if a = 0 then nan else if 0 < a then pinf else ninf)
      else fin (a / b)
  | fin _, pinf => fin 0
  | fin _, ninf => fin 0
  | pinf, fin b => if 0 ≤ b then pinf else ninf
  | ninf, fin b => if 0 ≤ b then ninf else pinf
  | pinf, pinf => nan
  | pinf, ninf => nan
  | ninf, pinf => nan
  | ninf, ninf => nan

open Classical in
/-- `np.sqrt` on float64: nan (with a RuntimeWarning) for negative input. -/
noncomputable def PyVal.sqrt : PyVal → PyVal
  | fin a => if a < 0 then nan else fin (Real.sqrt a)
  | pinf => pinf
  | ninf => nan
  | nan => nan

/-- float64 `np.e ** x`. -/
noncomputable def PyVal.exp : PyVal → PyVal
  | fin a => fin (Real.exp a)
  | pinf => pinf
  | ninf => fin 0
  | nan => nan

/-- Python's builtin `sum`: a left fold of `+` starting from 0. -/
noncomputable def PyVal.sum (l : List PyVal) : PyVal :=
  l.foldl PyVal.add (PyVal.fin 0)

/-- Whether a float64 value is finite (neither an infinity nor nan). -/
def PyVal.isFinite : PyVal → Bool
  | fin _ => true
  | pinf => false
  | ninf => false
  | nan => false

lemma PyVal.add_nonfin_left (a b : PyVal) (h : a.isFinite = false) :
    (PyVal.add a b).isFinite = false := by
  cases a <;> cases b <;> simp_all [PyVal.add, PyVal.isFinite]

lemma PyVal.add_nonfin_right (a b : PyVal) (h : b.isFinite = false) :
    (PyVal.add a b).isFinite = false := by
  cases a <;> cases b <;> simp_all [PyVal.add, PyVal.isFinite]

lemma PyVal.neg_nonfin (a : PyVal) (h : a.isFinite = false) :
    (PyVal.neg a).isFinite = false := by
  cases a <;> simp_all [PyVal.neg, PyVal.isFinite]

lemma PyVal.sub_nonfin_left (a b : PyVal) (h : a.isFinite = false) :
    (PyVal.sub a b).isFinite = false :=
  PyVal.add_nonfin_left _ _ h

lemma PyVal.sub_nonfin_right (a b : PyVal) (h : b.isFinite = false) :
    (PyVal.sub a b).isFinite = false :=
  PyVal.add_nonfin_right _ _ (PyVal.neg_nonfin _ h)

lemma PyVal.mul_nonfin_left (a b : PyVal) (h : a.isFinite = false) :
    (PyVal.mul a b).isFinite = false := by
  cases a <;> cases b <;>
    simp_all only [PyVal.mul, PyVal.isFinite] <;>
    first
      | rfl
      | (split_ifs <;> rfl)

lemma PyVal.mul_nonfin_right (a b : PyVal) (h : b.isFinite = false) :
    (PyVal.mul a b).isFinite = false := by
  cases a <;> cases b <;>
    simp_all only [PyVal.mul, PyVal.isFinite] <;>
    first
      | rfl
      | (split_ifs <;> rfl)

lemma PyVal.div_nonfin_left (a b : PyVal) (h : a.isFinite = false) :
    (PyVal.div a b).isFinite = false := by
  cases a <;> cases b <;>
    simp_all only [PyVal.div, PyVal.isFinite] <;>
    first
      | rfl
      | (split_ifs <;> rfl)

lemma PyVal.div_by_fin_zero (a : PyVal) :
    (PyVal.div a (PyVal.fin 0)).isFinite = false := by
  cases a <;>
    simp_all only [PyVal.div, PyVal.isFinite] <;>
    first
      | rfl
      | (split_ifs <;> rfl)

lemma PyVal.foldl_add_nonfin (l : List PyVal) (acc : PyVal)
    (h : acc.isFinite = false) :
    (l.foldl PyVal.add acc).isFinite = false := by
  induction l generalizing acc with
  | nil => exact h
  | cons v rest ih => exact ih _ (PyVal.add_nonfin_left _ _ h)

lemma PyVal.sum_cons_head_nonfin (v : PyVal) (l : List PyVal)
    (h : v.isFinite = false) :
    (PyVal.sum (v :: l)).isFinite = false :=
  PyVal.foldl_add_nonfin l _ (PyVal.add_nonfin_right _ _ h)

/-- The trapezoid accumulation of nIntegration under float64 semantics
(same code as `trapezSum`, with the float operations made explicit). -/
noncomputable def trapezSumFl (datax datay : List PyVal) : PyVal :=
  let xdif := List.zipWith (fun i j => PyVal.sub j i) datax datax.tail
  let ydif := List.zipWith (fun i j => PyVal.div (PyVal.add i j) (PyVal.fin 2))
    datay datay.tail
  PyVal.sum (List.zipWith PyVal.mul xdif ydif)

/-- `nIntegration` under float64 semantics (UNIlib.py lines 43-76). -/
noncomputable def nIntegrationFl (datax datay : List PyVal) : Except String PyVal :=
  if datax.length ≠ datay.length then
    Except.error "Die Eingabelisten datax und datay müssen die gleiche Länge haben."
  else if datax.length < 2 then Except.ok (PyVal.fin 0)
  else Except.ok (trapezSumFl datax datay)

lemma trapezSumFl_short (datax datay : List PyVal) (h : datax.length < 2) :
    trapezSumFl datax datay = PyVal.fin 0 := by
  match datax with
  | [] => rfl
  | [x] => rfl
  | x :: y :: l => simp at h; omega

lemma nIntegrationFl_eq_ok (datax datay : List PyVal)
    (h : datax.length = datay.length) :
    nIntegrationFl datax datay = Except.ok (trapezSumFl datax datay) := by
  rw [nIntegrationFl, if_neg (by simp [h])]
  by_cases h2 : datax.length < 2
  · rw [if_pos h2, trapezSumFl_short datax datay h2]
  · rw [if_neg h2]

/-- The head interval dominates: if the first y-value is non-finite, the
whole float trapezoid sum is non-finite (nan propagates through the fold). -/
lemma trapezSumFl_head_nonfin (x1 x2 : PyVal) (xs : List PyVal)
    (y1 y2 : PyVal) (ys : List PyVal)
    (h1 : y1.isFinite = false) :
    (trapezSumFl (x1 :: x2 :: xs) (y1 :: y2 :: ys)).isFinite = false := by
  apply PyVal.sum_cons_head_nonfin
  exact PyVal.mul_nonfin_right _ _
    (PyVal.div_nonfin_left _ _ (PyVal.add_nonfin_left _ _ h1))

/-- The `ergebnisse` fields of Manuelleauswertung under float64 semantics;
field names as in `MAresults`. -/
structure MAresultsFl where
  mu1 : PyVal
  mu2 : PyVal
  sigsq : PyVal
  sig : PyVal
  sigma_theta_sq : PyVal
  D_uL : PyVal
  V_eff : PyVal
  t : List PyVal
  f_i : PyVal
  c_t : List PyVal

/-- `Manuelleauswertung` (UNIlib.py lines 456-481) under float64 semantics:
the same computation as `ManuelleauswertungErgebnisse`, with every arithmetic
operation on the numpy value classes (`mu1 ** 2` and `b ** 2` are squarings,
`x ** 0.5` is `PyVal.sqrt`, `np.e ** x` is `PyVal.exp`).  The body contains
no check and no raise beyond the length check inside nIntegration: divisions
by zero and square roots of negative numbers produce non-finite float values
(with RuntimeWarnings) and flow on. -/
noncomputable def ManuelleauswertungFl (E_t t : List PyVal)
    (mol_in Volstrom c_in k0 Ea T : PyVal) : Except String MAresultsFl := do
  let I ← nIntegrationFl t E_t
  let E_tn := E_t.map (fun e => PyVal.div e I)
  let mu1 ← nIntegrationFl t (List.zipWith (fun a b => PyVal.mul a b) E_tn t)
  let mu2 ← nIntegrationFl t
    (List.zipWith (fun a b => PyVal.mul a (PyVal.mul b b)) E_tn t)
  let sigsq := PyVal.sub mu2 (PyVal.mul mu1 mu1)
  let sig := PyVal.sqrt sigsq
  let sigma_theta_sq := PyVal.div sigsq (PyVal.mul mu1 mu1)
  let D_uL := PyVal.div
    (PyVal.add (PyVal.fin (-2))
      (PyVal.sqrt (PyVal.add (PyVal.fin 4)
        (PyVal.mul (PyVal.fin 32) sigma_theta_sq))))
    (PyVal.fin 16)
  let V_eff := PyVal.mul mu1 Volstrom
  let c_t := E_tn.map (fun a => PyVal.div (PyVal.mul a mol_in) Volstrom)
  let k := PyVal.mul k0
    (PyVal.exp (PyVal.div (PyVal.neg Ea) (PyVal.mul (PyVal.fin 8.314) T)))
  let f_i := PyVal.div (PyVal.mul (PyVal.mul (PyVal.mul c_in mu1) (PyVal.fin 60)) k)
    (PyVal.add (PyVal.fin 1)
      (PyVal.mul (PyVal.mul (PyVal.mul c_in mu1) (PyVal.fin 60)) k))
  return { mu1 := mu1, mu2 := mu2, sigsq := sigsq, sig := sig,
           sigma_theta_sq := sigma_theta_sq, D_uL := D_uL, V_eff := V_eff,
           t := t, f_i := f_i, c_t := c_t }

/-- The successful value of the float-semantics `ergebnisse` computation. -/
noncomputable def MAresultOfFl (E_t t : List PyVal)
    (mol_in Volstrom c_in k0 Ea T : PyVal) : MAresultsFl :=
  let I := trapezSumFl t E_t
  let E_tn := E_t.map (fun e => PyVal.div e I)
  let mu1 := trapezSumFl t (List.zipWith (fun a b => PyVal.mul a b) E_tn t)
  let mu2 := trapezSumFl t
    (List.zipWith (fun a b => PyVal.mul a (PyVal.mul b b)) E_tn t)
  let sigsq := PyVal.sub mu2 (PyVal.mul mu1 mu1)
  let sig := PyVal.sqrt sigsq
  let sigma_theta_sq := PyVal.div sigsq (PyVal.mul mu1 mu1)
  let D_uL := PyVal.div
    (PyVal.add (PyVal.fin (-2))
      (PyVal.sqrt (PyVal.add (PyVal.fin 4)
        (PyVal.mul (PyVal.fin 32) sigma_theta_sq))))
    (PyVal.fin 16)
  let V_eff := PyVal.mul mu1 Volstrom
  let c_t := E_tn.map (fun a => PyVal.div (PyVal.mul a mol_in) Volstrom)
  let k := PyVal.mul k0
    (PyVal.exp (PyVal.div (PyVal.neg Ea) (PyVal.mul (PyVal.fin 8.314) T)))
  let f_i := PyVal.div (PyVal.mul (PyVal.mul (PyVal.mul c_in mu1) (PyVal.fin 60)) k)
    (PyVal.add (PyVal.fin 1)
      (PyVal.mul (PyVal.mul (PyVal.mul c_in mu1) (PyVal.fin 60)) k))
  { mu1 := mu1, mu2 := mu2, sigsq := sigsq, sig := sig,
    sigma_theta_sq := sigma_theta_sq, D_uL := D_uL, V_eff := V_eff,
    t := t, f_i := f_i, c_t := c_t }

lemma MAFl_eval (E_t t : List PyVal) (mol_in Volstrom c_in k0 Ea T : PyVal)
    (h : t.length = E_t.length) :
    ManuelleauswertungFl E_t t mol_in Volstrom c_in k0 Ea T =
      Except.ok (MAresultOfFl E_t t mol_in Volstrom c_in k0 Ea T) := by
  have h1 : nIntegrationFl t E_t = Except.ok (trapezSumFl t E_t) :=
    nIntegrationFl_eq_ok t E_t h
  have h2 : nIntegrationFl t
      (List.zipWith (fun a b => PyVal.mul a b)
        (E_t.map (fun e => PyVal.div e (trapezSumFl t E_t))) t) =
      Except.ok (trapezSumFl t (List.zipWith (fun a b => PyVal.mul a b)
        (E_t.map (fun e => PyVal.div e (trapezSumFl t E_t))) t)) :=
    nIntegrationFl_eq_ok _ _ (by simp [h])
  have h3 : nIntegrationFl t
      (List.zipWith (fun a b => PyVal.mul a (PyVal.mul b b))
        (E_t.map (fun e => PyVal.div e (trapezSumFl t E_t))) t) =
      Except.ok (trapezSumFl t (List.zipWith (fun a b => PyVal.mul a (PyVal.mul b b))
        (E_t.map (fun e => PyVal.div e (trapezSumFl t E_t))) t)) :=
    nIntegrationFl_eq_ok _ _ (by simp [h])
  simp only [ManuelleauswertungFl, h1, except_bind_ok, h2, h3, except_pure]
  rfl

lemma MAFl_ok_inv (E_t t : List PyVal) (mol_in Volstrom c_in k0 Ea T : PyVal)
    (r : MAresultsFl)
    (h : ManuelleauswertungFl E_t t mol_in Volstrom c_in k0 Ea T = Except.ok r) :
    r = MAresultOfFl E_t t mol_in Volstrom c_in k0 Ea T := by
  by_cases hl : t.length = E_t.length
  · rw [MAFl_eval E_t t mol_in Volstrom c_in k0 Ea T hl] at h
    simpa using h.symm
  · rw [ManuelleauswertungFl] at h
    rw [show nIntegrationFl t E_t =
        Except.error "Die Eingabelisten datax und datay müssen die gleiche Länge haben."
      from by rw [nIntegrationFl, if_pos hl]] at h
    rw [except_bind_error] at h
    cases h

lemma nIntegrationFl_ok_inv (datax datay : List PyVal) (v : PyVal)
    (h : nIntegrationFl datax datay = Except.ok v) :
    datax.length = datay.length ∧ v = trapezSumFl datax datay := by
  by_cases hl : datax.length = datay.length
  · rw [nIntegrationFl_eq_ok datax datay hl] at h
    exact ⟨hl, by simpa using h.symm⟩
  · rw [nIntegrationFl, if_pos hl] at h
    cases h

/-- C5 amended (corrected). When the raw integral nIntegration(t, E_t) is 0,
or the computed mean mu1 is 0, Manuelleauswertung does not fail: it completes
and the float divisions yield non-finite values, so the returned dimensionless
variance sigma_theta_sq is inf or nan. -/
theorem ManuelleauswertungFl_C5_amended (E_t t : List PyVal)
    (mol_in Volstrom c_in k0 Ea T : PyVal) (r : MAresultsFl)
    (hok : ManuelleauswertungFl E_t t mol_in Volstrom c_in k0 Ea T = Except.ok r)
    (hzero : nIntegrationFl t E_t = Except.ok (PyVal.fin 0) ∨ r.mu1 = PyVal.fin 0) :
    r.sigma_theta_sq.isFinite = false := by
  have hr := MAFl_ok_inv E_t t mol_in Volstrom c_in k0 Ea T r hok
  subst hr
  have hmul0 : PyVal.mul (PyVal.fin 0) (PyVal.fin 0) = PyVal.fin 0 := by
    simp [PyVal.mul]
  suffices hs : (MAresultOfFl E_t t mol_in Volstrom c_in k0 Ea T).mu1 = PyVal.fin 0 ∨
      ((MAresultOfFl E_t t mol_in Volstrom c_in k0 Ea T).mu1).isFinite = false by
    rcases hs with hmu | hmu
    · simp only [MAresultOfFl] at hmu ⊢
      rw [hmu, hmul0]
      exact PyVal.div_by_fin_zero _
    · simp only [MAresultOfFl] at hmu ⊢
      exact PyVal.div_nonfin_left _ _
        (PyVal.sub_nonfin_right _ _ (PyVal.mul_nonfin_left _ _ hmu))
  rcases hzero with hI | hmu
  · obtain ⟨hlen, hIv⟩ := nIntegrationFl_ok_inv t E_t _ hI
    by_cases h2 : t.length < 2
    · left
      simp only [MAresultOfFl]
      exact trapezSumFl_short _ _ h2
    · right
      cases t with
      | nil => simp at h2
      | cons t0 t' =>
        cases t' with
        | nil => simp at h2
        | cons t1 ts =>
          cases E_t with
          | nil => simp at hlen
          | cons e0 E' =>
            cases E' with
            | nil => simp at hlen
            | cons e1 es =>
              simp only [MAresultOfFl]
              rw [← hIv]
              simp only [List.map_cons, List.zipWith_cons_cons]
              exact trapezSumFl_head_nonfin _ _ _ _ _ _
                (PyVal.mul_nonfin_left _ _ (PyVal.div_by_fin_zero e0))
  · exact Or.inl hmu

/-- Under float64 semantics the raw integral of t = [0,1], E_t = [1,-1]
is exactly (positive) zero. -/
lemma trapezSumFl_C5input :
    trapezSumFl [PyVal.fin 0, PyVal.fin 1] [PyVal.fin 1, PyVal.fin (-1)] =
      PyVal.fin 0 := by
  simp only [trapezSumFl, List.tail, List.zipWith, PyVal.sum, List.foldl,
    PyVal.sub, PyVal.neg, PyVal.add, PyVal.mul, PyVal.div]
  norm_num

lemma nIntegrationFl_C5input :
    nIntegrationFl [PyVal.fin 0, PyVal.fin 1] [PyVal.fin 1, PyVal.fin (-1)] =
      Except.ok (PyVal.fin 0) := by
  rw [nIntegrationFl_eq_ok [PyVal.fin 0, PyVal.fin 1]
    [PyVal.fin 1, PyVal.fin (-1)] rfl, trapezSumFl_C5input]

/-- C5 counterexample. At t = [0,1], E_t = [1,-1] the raw integral is 0, yet
Manuelleauswertung does not fail with an arithmetic-domain error: it completes
and returns results containing non-finite values — the dimensionless variance
comes out as nan (1/0 and -1/0 give ±inf, inf*0 gives nan, and nan flows
through the moments), refuting the claim that the computation fails rather
than produce inf/NaN. -/
theorem ManuelleauswertungFl_C5_counterexample :
    nIntegrationFl [PyVal.fin 0, PyVal.fin 1] [PyVal.fin 1, PyVal.fin (-1)] =
      Except.ok (PyVal.fin 0) ∧
    (ManuelleauswertungFl [PyVal.fin 1, PyVal.fin (-1)] [PyVal.fin 0, PyVal.fin 1]
        (PyVal.fin 1) (PyVal.fin 1) (PyVal.fin 1) (PyVal.fin 1) (PyVal.fin 0)
        (PyVal.fin 1)).map (fun r => r.sigma_theta_sq) =
      Except.ok PyVal.nan := by
  refine ⟨nIntegrationFl_C5input, ?_⟩
  rw [MAFl_eval [PyVal.fin 1, PyVal.fin (-1)] [PyVal.fin 0, PyVal.fin 1]
    (PyVal.fin 1) (PyVal.fin 1) (PyVal.fin 1) (PyVal.fin 1) (PyVal.fin 0)
    (PyVal.fin 1) rfl]
  simp only [Except.map, MAresultOfFl]
  rw [trapezSumFl_C5input]
  simp only [List.map_cons, List.map_nil, List.tail, List.zipWith, PyVal.sum,
    List.foldl, PyVal.sub, PyVal.neg, PyVal.add, PyVal.mul, PyVal.div,
    trapezSumFl]
  norm_num

/-- Witness for the amended C5 at the same concrete input. -/
theorem ManuelleauswertungFl_C5_witness :
    ((MAresultOfFl [PyVal.fin 1, PyVal.fin (-1)] [PyVal.fin 0, PyVal.fin 1]
        (PyVal.fin 1) (PyVal.fin 1) (PyVal.fin 1) (PyVal.fin 1) (PyVal.fin 0)
        (PyVal.fin 1)).sigma_theta_sq).isFinite = false :=
  ManuelleauswertungFl_C5_amended _ _ _ _ _ _ _ _ _
    (MAFl_eval [PyVal.fin 1, PyVal.fin (-1)] [PyVal.fin 0, PyVal.fin 1]
      (PyVal.fin 1) (PyVal.fin 1) (PyVal.fin 1) (PyVal.fin 1) (PyVal.fin 0)
      (PyVal.fin 1) rfl) (Or.inl nIntegrationFl_C5input)

/-- The loop state of `verweilzeitUmsatzmake` under float64 semantics. -/
structure VZStateFl where
  tauexp : List PyVal
  F_i : List PyVal
  C_0i : List PyVal

/-- One iteration of the loop body (UNIlib.py lines 392-395) under float64
semantics.  The numerator `1 + 2*a - np.sqrt(...)` is a numpy scalar
(np.sqrt returns np.float64), so the division by `2*a` follows numpy
semantics: for `a = 0` it yields nan (0.0/0.0) with a RuntimeWarning instead
of raising ZeroDivisionError. -/
noncomputable def vzStepFl (k : PyVal) (s : VZStateFl) (i : ℕ) : VZStateFl :=
  let a := PyVal.mul (PyVal.mul (PyVal.mul (s.tauexp.getD i (PyVal.fin 0)) k)
    (s.C_0i.getD i (PyVal.fin 0))) (PyVal.fin 60)
  let F := PyVal.div
    (PyVal.sub (PyVal.add (PyVal.fin 1) (PyVal.mul (PyVal.fin 2) a))
      (PyVal.sqrt (PyVal.add (PyVal.fin 1)
        (PyVal.mul (PyVal.mul (PyVal.fin 4) a)
          (PyVal.sub (PyVal.fin 1) (s.F_i.getD i (PyVal.fin 0)))))))
    (PyVal.mul (PyVal.fin 2) a)
  { tauexp := s.tauexp,
    F_i := s.F_i ++ [F],
    C_0i := s.C_0i ++ [PyVal.mul F (s.C_0i.getD i (PyVal.fin 0))] }

/-- `verweilzeitUmsatzmake` (UNIlib.py lines 342-396) under float64
semantics: Arrhenius constant, seed `F_i = [0]`, `ii` loop iterations. -/
noncomputable def verweilzeitUmsatzmakeFl (tau : List PyVal) (k0 Ea T : PyVal)
    (C_0i : List PyVal) (ii : ℕ) : VZStateFl :=
  let k := PyVal.mul k0
    (PyVal.exp (PyVal.div (PyVal.neg Ea) (PyVal.mul (PyVal.fin 8.314) T)))
  (List.range ii).foldl (vzStepFl k) { tauexp := tau, F_i := [PyVal.fin 0], C_0i := C_0i }

/-- C6 (code_bug). At tau = [0], k0 = 1, Ea = 0, T = 300, C0 = [1], ii = 1
the loop computes a = 0, and instead of raising the ZeroDivisionError its own
docstring promises, the iterator computes 0.0/0.0 under numpy scalar
semantics and returns the conversion sequence [0, nan] (and appends nan to
the concentration list) — it completes without any exception. -/
theorem verweilzeitUmsatzmakeFl_C6 :
    (verweilzeitUmsatzmakeFl [PyVal.fin 0] (PyVal.fin 1) (PyVal.fin 0)
      (PyVal.fin 300) [PyVal.fin 1] 1).F_i = [PyVal.fin 0, PyVal.nan] ∧
    (verweilzeitUmsatzmakeFl [PyVal.fin 0] (PyVal.fin 1) (PyVal.fin 0)
      (PyVal.fin 300) [PyVal.fin 1] 1).C_0i = [PyVal.fin 1, PyVal.nan] := by
  have hrange : List.range 1 = [0] := rfl
  constructor <;>
    (simp only [verweilzeitUmsatzmakeFl, hrange, List.foldl, vzStepFl,
      List.getD, List.getElem?_cons_zero, Option.getD_some,
      PyVal.neg, PyVal.mul, PyVal.add, PyVal.sub, PyVal.div, PyVal.sqrt,
      PyVal.exp]
     norm_num [Real.exp_zero, Real.sqrt_one])
